import Mathlib

/-!
Verification of the Rust on-device photo-analysis core (mobile/apps/photos/rust).

Shallow embedding conventions:
* Rust `f32` / `f64` arithmetic is modelled by exact rational arithmetic (`ℚ`);
  where floating-point special values matter (the vector-search similarity
  argument) a dedicated `F32` type with `nan` / `inf` values is used.
* Machine integers (`u32`, `usize`, `u64`, `i64`, `u128`) are modelled by `ℕ` / `ℤ`;
  the concrete bound checks of the source (for example against `u32::MAX`) are kept.
* Fallible Rust functions returning `Result` become `Except`.
* The external `usearch` ANN index and the external image resize / JPEG encode
  libraries are modelled abstractly: the index as a multiset of keyed entries with
  a capacity (the wrapper code itself enforces the one-entry-per-key discipline),
  the resize/encode calls as oracle parameters.
* Loops that mutate through indices are modelled by structurally recursive
  functions; where the Rust loop's termination measure is not structural
  (binary search, NMS with removal) an explicit fuel argument bounded by the
  measure is used so that the functions stay executable.
-/

namespace Ente

/-- Rust `f32::clamp(lo, hi)` / `f64::clamp(lo, hi)` on exact rationals
(for `lo ≤ hi` this equals `min (max v lo) hi`). -/
def rclamp (v lo hi : ℚ) : ℚ := min (max v lo) hi

/-- Rust `f32::round` (round half away from zero) on exact rationals. -/
def rustRound (q : ℚ) : ℤ := if q < 0 then -⌊-q + 1/2⌋ else ⌊q + 1/2⌋

/-- Error taxonomy of `ml/error.rs` (`MlError`). -/
inductive MlError where
  | InvalidRequest : String → MlError
  | Decode : String → MlError
  | Preprocess : String → MlError
  | Ort : String → MlError
  | Postprocess : String → MlError
  | Runtime : String → MlError
deriving DecidableEq

/-! ## `ml/types.rs` -/

/-- The `box_xyxy: [f32; 4]` array, modelled as a record `[x_min, y_min, x_max, y_max]`. -/
structure Box4 where
  x1 : ℚ
  y1 : ℚ
  x2 : ℚ
  y2 : ℚ
deriving DecidableEq

/-- `FaceDetection` of `ml/types.rs`. -/
structure FaceDetection where
  score : ℚ
  box_xyxy : Box4
  keypoints : List (ℚ × ℚ)
deriving DecidableEq

/-- Round to the nearest integer, ties to even: the rounding Rust's exact
fixed-precision float formatting (`format!` with precision) applies. -/
def roundHalfEven (q : ℚ) : ℤ :=
  let f := ⌊q⌋
  let r := q - f
  if r < 1/2 then f
  else if 1/2 < r then f + 1
  else if f % 2 = 0 then f else f + 1

/-- Decimal digits of `n` left-padded with zeros to width 5 (the fractional part
printed by `format!` with precision 5). -/
def pad5 (n : ℕ) : String :=
  String.mk (List.replicate (5 - (toString n).length) '0') ++ toString n

/-- Rust `format!` of a nonnegative rational with precision 5
(`{v:.5}`): the correctly rounded decimal with exactly five fractional digits. -/
def formatFixed5 (v : ℚ) : String :=
  let n := (roundHalfEven (v * 100000)).toNat
  toString (n / 100000) ++ "." ++ pad5 (n % 100000)

/-- Rust `str::split_once('.')`: split at the first dot, `none` when there is no dot. -/
def splitOnceDot (s : String) : Option (String × String) :=
  if '.' ∈ s.data then
    some (String.mk (s.data.takeWhile (fun c => decide (c ≠ '.'))),
          String.mk ((s.data.dropWhile (fun c => decide (c ≠ '.'))).drop 1))
  else none

/-- The inner `to_face_segment` of `to_face_id` (`ml/types.rs`): clamp to
`[0, 0.999999]`, format with five fractional digits, keep the part after the dot. -/
def to_face_segment (v : ℚ) : String :=
  let clamped := rclamp v 0 (999999/1000000)
  let fixed := formatFixed5 clamped
  match splitOnceDot fixed with
  | some pr => pr.2
  | none => "00000"

/-- `to_face_id` of `ml/types.rs`. -/
def to_face_id (file_id : ℤ) (box_xyxy : Box4) : String :=
  toString file_id ++ "_" ++ to_face_segment box_xyxy.x1 ++ "_" ++ to_face_segment box_xyxy.y1
    ++ "_" ++ to_face_segment box_xyxy.x2 ++ "_" ++ to_face_segment box_xyxy.y2

/-! ## `ml/preprocess.rs` -/

/-- `Dimensions` of `ml/types.rs`. -/
structure Dimensions where
  width : ℕ
  height : ℕ
deriving DecidableEq

/-- `DecodedImage` of `ml/types.rs` (`rgb: Vec<u8>` as a list of byte values). -/
structure DecodedImage where
  dimensions : Dimensions
  rgb : List ℕ

/-- `PAD_VALUE` of `ml/preprocess.rs`. -/
def PAD_VALUE : ℚ := 114

/-- `read_rgb` of `ml/preprocess.rs`. -/
def read_rgb (decoded : DecodedImage) (x y : ℤ) : ℚ × ℚ × ℚ :=
  let width : ℤ := decoded.dimensions.width
  let height : ℤ := decoded.dimensions.height
  if x < 0 ∨ y < 0 ∨ width ≤ x ∨ height ≤ y then (PAD_VALUE, PAD_VALUE, PAD_VALUE)
  else
    let idx := (y.toNat * decoded.dimensions.width + x.toNat) * 3
    ((decoded.rgb.getD idx 0 : ℚ), (decoded.rgb.getD (idx + 1) 0 : ℚ),
     (decoded.rgb.getD (idx + 2) 0 : ℚ))

/-- `sample_bilinear_rgb` of `ml/preprocess.rs`. -/
def sample_bilinear_rgb (decoded : DecodedImage) (fx0 fy0 : ℚ) : ℚ × ℚ × ℚ :=
  let max_x : ℚ := (decoded.dimensions.width - 1 : ℕ)
  let max_y : ℚ := (decoded.dimensions.height - 1 : ℕ)
  let fx := rclamp fx0 0 max_x
  let fy := rclamp fy0 0 max_y
  let x0 : ℤ := ⌊fx⌋
  let x1 : ℤ := ⌈fx⌉
  let y0 : ℤ := ⌊fy⌋
  let y1 : ℤ := ⌈fy⌉
  let dx := fx - (x0 : ℚ)
  let dy := fy - (y0 : ℚ)
  let dx1 := 1 - dx
  let dy1 := 1 - dy
  let p1 := read_rgb decoded x0 y0
  let p2 := read_rgb decoded x1 y0
  let p3 := read_rgb decoded x0 y1
  let p4 := read_rgb decoded x1 y1
  (p1.1 * dx1 * dy1 + p2.1 * dx * dy1 + p3.1 * dx1 * dy + p4.1 * dx * dy,
   p1.2.1 * dx1 * dy1 + p2.2.1 * dx * dy1 + p3.2.1 * dx1 * dy + p4.2.1 * dx * dy,
   p1.2.2 * dx1 * dy1 + p2.2.2 * dx * dy1 + p3.2.2 * dx1 * dy + p4.2.2 * dx * dy)

/-- The body of the fill loop of `preprocess_yolo`, as a function of the flat
tensor index `i = plane * 640 * 640 + y * 640 + x`: the value `preprocess_yolo`
writes at that index of its planar output tensor. -/
def yolo_pixel (decoded : DecodedImage) (scale : ℚ) (scaled_width scaled_height : ℕ)
    (i : ℕ) : ℚ :=
  let plane := i / (640 * 640)
  let pix := i % (640 * 640)
  let y := pix / 640
  let x := pix % 640
  let rgb :=
    if scaled_width ≤ x ∨ scaled_height ≤ y then (PAD_VALUE, PAD_VALUE, PAD_VALUE)
    else sample_bilinear_rgb decoded ((x : ℚ) / scale) ((y : ℚ) / scale)
  (if plane = 0 then rgb.1 else if plane = 1 then rgb.2.1 else rgb.2.2) / 255

/-- `preprocess_yolo` of `ml/preprocess.rs`.  The planar output tensor of length
`3 * 640 * 640` is modelled as the function from the flat index to the value
written at that index by the fill loop (`yolo_pixel`). -/
def preprocess_yolo (decoded : DecodedImage) : Except MlError ((ℕ → ℚ) × ℕ × ℕ) :=
  if decoded.dimensions.width = 0 ∨ decoded.dimensions.height = 0 then
    .error (.Preprocess ("image dimensions cannot be zero"))
  else
    let src_w : ℚ := decoded.dimensions.width
    let src_h : ℚ := decoded.dimensions.height
    let scale := min (640 / src_w) (640 / src_h)
    let scaled_width := (min (max (rustRound (src_w * scale)) 0) 640).toNat
    let scaled_height := (min (max (rustRound (src_h * scale)) 0) 640).toNat
    let output : ℕ → ℚ := yolo_pixel decoded scale scaled_width scaled_height
    .ok (output, scaled_width, scaled_height)

/-- The scaled (letterboxed) dimensions returned by `preprocess_yolo`, when it
succeeds (used to state claims about them without fixing the tensor). -/
def yolo_scaled_dims (decoded : DecodedImage) : Option (ℕ × ℕ) :=
  match preprocess_yolo decoded with
  | .ok r => some r.2
  | .error _ => none

/-! ## `ml/face/detect.rs` -/

/-- `INPUT_WIDTH` of `ml/face/detect.rs`. -/
def INPUT_WIDTH : ℚ := 640

/-- `INPUT_HEIGHT` of `ml/face/detect.rs`. -/
def INPUT_HEIGHT : ℚ := 640

/-- `IOU_THRESHOLD` of `ml/face/detect.rs` (0.4). -/
def IOU_THRESHOLD : ℚ := 2/5

/-- `MIN_SCORE_THRESHOLD` of `ml/face/detect.rs` (0.5). -/
def MIN_SCORE_THRESHOLD : ℚ := 1/2

/-- `calculate_iou` of `ml/face/detect.rs`. -/
def calculate_iou (a b : FaceDetection) : ℚ :=
  let area_a := max (a.box_xyxy.x2 - a.box_xyxy.x1) 0 * max (a.box_xyxy.y2 - a.box_xyxy.y1) 0
  let area_b := max (b.box_xyxy.x2 - b.box_xyxy.x1) 0 * max (b.box_xyxy.y2 - b.box_xyxy.y1) 0
  let intersection_min_x := max a.box_xyxy.x1 b.box_xyxy.x1
  let intersection_min_y := max a.box_xyxy.y1 b.box_xyxy.y1
  let intersection_max_x := min a.box_xyxy.x2 b.box_xyxy.x2
  let intersection_max_y := min a.box_xyxy.y2 b.box_xyxy.y2
  let intersection_width := intersection_max_x - intersection_min_x
  let intersection_height := intersection_max_y - intersection_min_y
  if intersection_width < 0 ∨ intersection_height < 0 then 0
  else
    let intersection_area := intersection_width * intersection_height
    let union_area := area_a + area_b - intersection_area
    if union_area ≤ 0 then 0 else intersection_area / union_area

/-- Insert a detection into a list sorted by descending score (helper of the
stable sort modelling `detections.sort_by(|a, b| b.score.total_cmp(&a.score))`). -/
def insertByScoreDesc (d : FaceDetection) : List FaceDetection → List FaceDetection
  | [] => [d]
  | e :: rest => if e.score < d.score then d :: e :: rest else e :: insertByScoreDesc d rest

/-- Stable insertion sort by descending score, modelling
`detections.sort_by(|a, b| b.score.total_cmp(&a.score))`. -/
def sortByScoreDesc : List FaceDetection → List FaceDetection
  | [] => []
  | d :: rest => insertByScoreDesc d (sortByScoreDesc rest)

/-- The suppression loop of `naive_non_max_suppression`: keep the current head
and delete every later detection whose IoU with it reaches the threshold.  The
fuel argument bounds the number of outer-loop iterations; it never runs out when
started at the list length, because each iteration consumes one element. -/
def nmsFuel (iou_threshold : ℚ) : ℕ → List FaceDetection → List FaceDetection
  | 0, l => l
  | _ + 1, [] => []
  | fuel + 1, d :: rest =>
    d :: nmsFuel iou_threshold fuel
      (rest.filter (fun e => decide (calculate_iou d e < iou_threshold)))

/-- `naive_non_max_suppression` of `ml/face/detect.rs`. -/
def naive_non_max_suppression (detections : List FaceDetection) (iou_threshold : ℚ) :
    List FaceDetection :=
  let sorted := sortByScoreDesc detections
  nmsFuel iou_threshold sorted.length sorted

/-- The per-coordinate un-letterboxing step
`(v * (640.0 / scaled_dim as f32)).clamp(0.0, 1.0)` of
`correct_for_maintained_aspect_ratio`, including the `f32` behaviour at a zero
scaled dimension (reachable: `preprocess_yolo` clamps the rounded scaled
dimension at 0, see the C5 development): there `640.0 / 0 = +inf`, so a positive
coordinate clamps to 1, a negative one to 0, and `0.0 * inf = NaN`, which
`f32::clamp` propagates.  NaN is not representable in `ℚ`; it is modelled by the
sentinel `-1`, a value outside `[0,1]` and below 0, so that no normalization or
ordering claim can be proved about a coordinate that is NaN in the program (no
theorem in this file depends on the sentinel's exact value). -/
def scaleClamp01 (v : ℚ) (scaled_dim : ℕ) : ℚ :=
  if scaled_dim = 0 then (if 0 < v then 1 else if v < 0 then 0 else -1)
  else rclamp (v * (INPUT_WIDTH / (scaled_dim : ℚ))) 0 1

/-- The renamed `correct_for_maintained_aspect_ratio` of `ml/face/detect.rs`
(un-letterboxing: identity when the scaled size is exactly 640 x 640, otherwise
scale by 640 divided by the scaled dimension and clamp each coordinate into
`[0,1]`, the per-coordinate arithmetic — division-by-zero included — being
`scaleClamp01`; `INPUT_WIDTH = INPUT_HEIGHT = 640` so the same helper serves
both axes). -/
def correct_for_maintained_aspect (box : Box4) (keypoints : List (ℚ × ℚ))
    (scaled_width scaled_height : ℕ) : Box4 × List (ℚ × ℚ) :=
  if scaled_width = 640 ∧ scaled_height = 640 then (box, keypoints)
  else
    (⟨scaleClamp01 box.x1 scaled_width, scaleClamp01 box.y1 scaled_height,
      scaleClamp01 box.x2 scaled_width, scaleClamp01 box.y2 scaled_height⟩,
     keypoints.map (fun p =>
      (scaleClamp01 p.1 scaled_width, scaleClamp01 p.2 scaled_height)))

/-- One iteration of the row loop of `run_face_detection`: parse the 16-entry
row at index `i`, drop it when `score < MIN_SCORE_THRESHOLD`, otherwise convert
to normalized XYXY plus keypoints and un-letterbox. -/
def detectionFromRow (row : ℕ → ℚ) (scaled_width scaled_height : ℕ) : Option FaceDetection :=
  let score := row 4
  if score < MIN_SCORE_THRESHOLD then none
  else
    let x_min_abs := row 0 - row 2 / 2
    let y_min_abs := row 1 - row 3 / 2
    let x_max_abs := row 0 + row 2 / 2
    let y_max_abs := row 1 + row 3 / 2
    let box : Box4 :=
      ⟨x_min_abs / INPUT_WIDTH, y_min_abs / INPUT_HEIGHT,
       x_max_abs / INPUT_WIDTH, y_max_abs / INPUT_HEIGHT⟩
    let keypoints : List (ℚ × ℚ) :=
      [(row 5 / INPUT_WIDTH, row 6 / INPUT_HEIGHT), (row 7 / INPUT_WIDTH, row 8 / INPUT_HEIGHT),
       (row 9 / INPUT_WIDTH, row 10 / INPUT_HEIGHT),
       (row 11 / INPUT_WIDTH, row 12 / INPUT_HEIGHT),
       (row 13 / INPUT_WIDTH, row 14 / INPUT_HEIGHT)]
    let corrected := correct_for_maintained_aspect box keypoints scaled_width scaled_height
    some ⟨score, corrected.1, corrected.2⟩

/-- The postprocessing of `run_face_detection` (`ml/face/detect.rs`), as a
function of the raw model output tensor data and the letterboxed size returned
by `preprocess_yolo` (the ONNX inference itself is external). -/
def run_face_detection_post (output_data : List ℚ) (scaled_width scaled_height : ℕ) :
    Except MlError (List FaceDetection) :=
  if output_data.length < 16 then
    .error (.Postprocess ("unexpected face detector output size"))
  else
    let detection_rows := output_data.length / 16
    let detections := (List.range detection_rows).filterMap
      (fun i => detectionFromRow (fun j => output_data.getD (i * 16 + j) 0)
        scaled_width scaled_height)
    .ok (naive_non_max_suppression detections IOU_THRESHOLD)

/-- The coordinates of a detection, in the order box `[x_min, y_min, x_max, y_max]`
followed by the flattened keypoints (used to state normalization claims). -/
def detectionCoords (d : FaceDetection) : List ℚ :=
  [d.box_xyxy.x1, d.box_xyxy.y1, d.box_xyxy.x2, d.box_xyxy.y2]
    ++ (d.keypoints.map (fun p => [p.1, p.2])).flatten

/-- The spec sentence under test for the face detector (C1): every detection
returned by the postprocessing has all coordinates in `[0,1]`, an ordered box
and a score of at least 0.5, for every raw output and letterboxed size. -/
def face_detection_claim : Prop :=
  ∀ (output_data : List ℚ) (scaled_width scaled_height : ℕ) dets,
    run_face_detection_post output_data scaled_width scaled_height = .ok dets →
    ∀ d ∈ dets,
      (∀ c ∈ detectionCoords d, 0 ≤ c ∧ c ≤ 1)
      ∧ d.box_xyxy.x1 ≤ d.box_xyxy.x2 ∧ d.box_xyxy.y1 ≤ d.box_xyxy.y2
      ∧ MIN_SCORE_THRESHOLD ≤ d.score

/-- Raw detector output with one row placing the box centre far left of the
input (an off-tensor raw value), at full score. -/
def rawRowA : List ℚ := [-100, 320, 20, 20, 1, 0, 0, 0, 0, 0, 0, 0, 0, 0, 0, 0]

/-- The detection produced from `rawRowA` at letterboxed size 640 x 640. -/
def detA : FaceDetection :=
  ⟨1, ⟨-11/64, 31/64, -9/64, 33/64⟩, [(0, 0), (0, 0), (0, 0), (0, 0), (0, 0)]⟩

/-- Raw detector output with one row whose width entry is negative. -/
def rawRowB : List ℚ := [320, 320, -200, 100, 1, 0, 0, 0, 0, 0, 0, 0, 0, 0, 0, 0]

/-- The detection produced from `rawRowB` at letterboxed size 320 x 640. -/
def detB : FaceDetection :=
  ⟨1, ⟨1, 27/64, 11/16, 37/64⟩, [(0, 0), (0, 0), (0, 0), (0, 0), (0, 0)]⟩

/-- Raw detector output with one well-formed full-score row (box 100 x 100
centred at (320, 320), all keypoints at (320, 320)). -/
def rawRowC : List ℚ :=
  [320, 320, 100, 100, 1, 320, 320, 320, 320, 320, 320, 320, 320, 320, 320, 320]

/-- The detection produced from `rawRowC` at letterboxed size 320 x 320. -/
def detC : FaceDetection :=
  ⟨1, ⟨27/32, 27/32, 1, 1⟩, [(1, 1), (1, 1), (1, 1), (1, 1), (1, 1)]⟩

/-! ## `ml/face/thumbnail.rs` and `image/image_compression.rs` -/

/-- `REGULAR_PADDING` of `ml/face/thumbnail.rs` (0.4). -/
def REGULAR_PADDING : ℚ := 2/5

/-- `MINIMUM_PADDING` of `ml/face/thumbnail.rs` (0.1). -/
def MINIMUM_PADDING : ℚ := 1/10

/-- `FACE_THUMBNAIL_JPEG_QUALITY` of `image/image_compression.rs`. -/
def FACE_THUMBNAIL_JPEG_QUALITY : ℕ := 90

/-- `FACE_THUMBNAIL_MIN_DIMENSION` of `image/image_compression.rs`. -/
def FACE_THUMBNAIL_MIN_DIMENSION : ℕ := 512

/-- `FaceBox` of `ml/face/thumbnail.rs` (normalized box with top-left corner and size). -/
structure FaceBox where
  x : ℚ
  y : ℚ
  width : ℚ
  height : ℚ

/-- `CropRect` of `ml/face/thumbnail.rs`. -/
structure CropRect where
  x : ℚ
  y : ℚ
  width : ℚ
  height : ℚ
  output_width : ℕ
  output_height : ℕ
deriving DecidableEq

/-- `float_to_output_dimension` of `ml/face/thumbnail.rs` (a rational is always
finite, so only the sign and `u32::MAX` checks remain; `trunc` of a nonnegative
value is its floor). -/
def float_to_output_dimension (value : ℚ) : Option ℕ :=
  if value < 0 then none
  else if 4294967295 < ⌊value⌋ then none
  else some ⌊value⌋.toNat

/-- `compute_crop_rect` of `ml/face/thumbnail.rs` (error strings abbreviated:
the formatted-in values are dropped). -/
def compute_crop_rect (face_box : FaceBox) (image_width image_height : ℚ) :
    Except String CropRect :=
  if image_width ≤ 0 ∨ image_height ≤ 0 then .error ("image dimensions must be positive")
  else
    let x_min_abs := face_box.x * image_width
    let y_min_abs := face_box.y * image_height
    let width_abs := face_box.width * image_width
    let height_abs := face_box.height * image_height
    if width_abs ≤ 0 ∨ height_abs ≤ 0 then
      .error ("face box width/height must map to positive absolute dimensions")
    else
      let x_crop := x_min_abs - width_abs * REGULAR_PADDING
      let x_overshoot := |min x_crop 0| / width_abs
      let width_crop := width_abs * (1 + 2 * REGULAR_PADDING)
        - 2 * min x_overshoot (REGULAR_PADDING - MINIMUM_PADDING) * width_abs
      let y_crop := y_min_abs - height_abs * REGULAR_PADDING
      let y_overshoot := |min y_crop 0| / height_abs
      let height_crop := height_abs * (1 + 2 * REGULAR_PADDING)
        - 2 * min y_overshoot (REGULAR_PADDING - MINIMUM_PADDING) * height_abs
      let x_crop_safe := rclamp x_crop 0 image_width
      let y_crop_safe := rclamp y_crop 0 image_height
      let width_crop_safe := rclamp width_crop 0 (max (image_width - x_crop_safe) 0)
      let height_crop_safe := rclamp height_crop 0 (max (image_height - y_crop_safe) 0)
      match float_to_output_dimension width_crop_safe,
            float_to_output_dimension height_crop_safe with
      | some output_width, some output_height =>
        if output_width = 0 ∨ output_height = 0 then
          .error ("crop dimensions resolve to zero-sized output")
        else
          .ok ⟨x_crop_safe, y_crop_safe, width_crop_safe, height_crop_safe,
               output_width, output_height⟩
      | _, _ => .error ("invalid output dimension from crop value")

/-- `scaled_long_side` of `ml/face/thumbnail.rs` (`u128` arithmetic is exact in `ℕ`). -/
def scaled_long_side (long_side short_side : ℕ) : Except MlError ℕ :=
  if short_side = 0 then .error (.Postprocess ("cannot scale with zero short side"))
  else
    let numerator := long_side * FACE_THUMBNAIL_MIN_DIMENSION
    let rounded := (numerator + short_side / 2) / short_side
    if rounded = 0 ∨ 4294967295 < rounded then
      .error (.Postprocess ("invalid scaled dimension"))
    else .ok rounded

/-- `dimensions_with_min_side` of `ml/face/thumbnail.rs`. -/
def dimensions_with_min_side (width height : ℕ) : Except MlError (ℕ × ℕ) :=
  if width = 0 ∨ height = 0 then
    .error (.Postprocess ("cannot compute resize dimensions for zero-sized crop"))
  else if width ≤ height then
    match scaled_long_side height width with
    | .error e => .error e
    | .ok h => .ok (FACE_THUMBNAIL_MIN_DIMENSION, h)
  else
    match scaled_long_side width height with
    | .error e => .error e
    | .ok w => .ok (w, FACE_THUMBNAIL_MIN_DIMENSION)

/-- Resize filter kinds of the external `fast_image_resize` library. -/
inductive FilterType where
  | CatmullRom : FilterType
  | Bilinear : FilterType
  | Mitchell : FilterType
  | Lanczos3 : FilterType
deriving DecidableEq

/-- `select_resize_filter` of `ml/face/thumbnail.rs` (1.15 = 23/20, 1.5 = 3/2). -/
def select_resize_filter (crop : CropRect) (target_width target_height : ℕ) : FilterType :=
  let scale_x := crop.width / (target_width : ℚ)
  let scale_y := crop.height / (target_height : ℚ)
  let max_scale := max scale_x scale_y
  if max_scale < 1 then .CatmullRom
  else if max_scale ≤ 23/20 then .Bilinear
  else if max_scale ≤ 3/2 then .Mitchell
  else .Lanczos3

/-- `fir_image_ref_from_decoded` of `ml/face/thumbnail.rs`: the external
`FirImageRef::new` succeeds exactly when the RGB buffer length matches the
dimensions (3 bytes per pixel). -/
def fir_image_ref_from_decoded (decoded : DecodedImage) : Except MlError Unit :=
  if decoded.rgb.length = decoded.dimensions.width * decoded.dimensions.height * 3 then .ok ()
  else .error (.Decode ("invalid decoded RGB buffer"))

/-- The per-face loop of `generate_face_thumbnails`.  The external resize
(`resize_crop_with_fir`) and JPEG encode (`encode_rgb`) calls are oracle
parameters; `index` tracks the loop index used in the error message. -/
def generate_face_thumbnails_go
    (resizeOracle : FilterType → CropRect → ℕ → ℕ → Except MlError (List ℕ))
    (encodeOracle : List ℕ → ℕ → ℕ → ℕ → Except MlError (List ℕ))
    (image_width image_height : ℚ) (index : ℕ) :
    List FaceBox → Except MlError (List (List ℕ))
  | [] => .ok []
  | face_box :: rest =>
    match compute_crop_rect face_box image_width image_height with
    | .error e =>
      .error (.InvalidRequest (("invalid face box at index ") ++ toString index ++ (": ") ++ e))
    | .ok crop =>
      match dimensions_with_min_side crop.output_width crop.output_height with
      | .error e => .error e
      | .ok dims =>
        match resizeOracle (select_resize_filter crop dims.1 dims.2) crop dims.1 dims.2 with
        | .error e => .error e
        | .ok resized =>
          match encodeOracle resized dims.1 dims.2 FACE_THUMBNAIL_JPEG_QUALITY with
          | .error e => .error e
          | .ok compressed =>
            match generate_face_thumbnails_go resizeOracle encodeOracle
                image_width image_height (index + 1) rest with
            | .error e => .error e
            | .ok results => .ok (compressed :: results)

/-- `generate_face_thumbnails` of `ml/face/thumbnail.rs`. -/
def generate_face_thumbnails
    (resizeOracle : FilterType → CropRect → ℕ → ℕ → Except MlError (List ℕ))
    (encodeOracle : List ℕ → ℕ → ℕ → ℕ → Except MlError (List ℕ))
    (decoded : DecodedImage) (face_boxes : List FaceBox) : Except MlError (List (List ℕ)) :=
  if face_boxes.isEmpty then .ok []
  else if decoded.dimensions.width = 0 ∨ decoded.dimensions.height = 0 then
    .error (.Decode ("decoded image dimensions cannot be empty"))
  else
    match fir_image_ref_from_decoded decoded with
    | .error e => .error e
    | .ok _ =>
      generate_face_thumbnails_go resizeOracle encodeOracle
        (decoded.dimensions.width : ℚ) (decoded.dimensions.height : ℚ) 0 face_boxes

/-! ## `api/ml_indexing_api.rs` -/

/-- `RustModelPaths` of `api/ml_indexing_api.rs`. -/
structure RustModelPaths where
  face_detection : String
  face_embedding : String
  clip_image : String

/-- `RustExecutionProviderPolicy` of `api/ml_indexing_api.rs`. -/
structure RustExecutionProviderPolicy where
  prefer_coreml : Bool
  prefer_nnapi : Bool
  prefer_xnnpack : Bool
  allow_cpu_fallback : Bool

/-- `AnalyzeImageRequest` of `api/ml_indexing_api.rs`. -/
structure AnalyzeImageRequest where
  file_id : ℤ
  image_path : String
  run_faces : Bool
  run_clip : Bool
  model_paths : RustModelPaths
  provider_policy : RustExecutionProviderPolicy

/-- Rust `s.trim().is_empty()`: every character of the string is whitespace. -/
def trim_is_empty (s : String) : Bool := s.data.all (fun c => c.isWhitespace)

/-- The list of missing-path labels accumulated by `validate_request_model_paths`,
in push order: face detection, face embedding, CLIP image. -/
def missing_model_paths (req : AnalyzeImageRequest) : List String :=
  (if req.run_faces && trim_is_empty req.model_paths.face_detection
    then [("faceDetectionModelPath")] else [])
  ++ (if req.run_faces && trim_is_empty req.model_paths.face_embedding
    then [("faceEmbeddingModelPath")] else [])
  ++ (if req.run_clip && trim_is_empty req.model_paths.clip_image
    then [("clipImageModelPath")] else [])

/-- `validate_request_model_paths` of `api/ml_indexing_api.rs`. -/
def validate_request_model_paths (req : AnalyzeImageRequest) : Except MlError Unit :=
  let missing := missing_model_paths req
  if missing.isEmpty then .ok ()
  else
    .error (.InvalidRequest (("missing required model paths: ")
      ++ String.intercalate (", ") missing))

/-! ## `api/usearch_api.rs` -/

/-- Model of the external `usearch::Index`: a sequence of keyed entries (the raw
index allows several entries per key, which is why the wrapper removes before
adding) together with the reserved capacity. -/
structure UsearchIndex where
  entries : List (ℕ × List ℚ)
  capacity : ℕ

/-- Modelled `Index::size`. -/
def UsearchIndex.size (idx : UsearchIndex) : ℕ := idx.entries.length

/-- Modelled `Index::contains`. -/
def UsearchIndex.containsKey (idx : UsearchIndex) (key : ℕ) : Bool :=
  idx.entries.any (fun e => e.1 == key)

/-- Modelled `Index::reserve` (never shrinks the reservation). -/
def UsearchIndex.reserveCap (idx : UsearchIndex) (n : ℕ) : UsearchIndex :=
  ⟨idx.entries, max idx.capacity n⟩

/-- Modelled `Index::add`: appends an entry, failing when the capacity is exhausted. -/
def UsearchIndex.addEntry (idx : UsearchIndex) (key : ℕ) (v : List ℚ) :
    Except String UsearchIndex :=
  if idx.capacity ≤ idx.entries.length then .error ("index capacity exhausted")
  else .ok ⟨idx.entries ++ [(key, v)], idx.capacity⟩

/-- Modelled `Index::remove`: drops every entry with the key, returning the count. -/
def UsearchIndex.removeKey (idx : UsearchIndex) (key : ℕ) : UsearchIndex × ℕ :=
  let kept := idx.entries.filter (fun e => decide (e.1 ≠ key))
  (⟨kept, idx.capacity⟩, idx.entries.length - kept.length)

/-- `VectorDB` of `api/usearch_api.rs`: the in-memory index plus the on-disk
snapshot at `backing_path` (the file contents, as the list of entries it encodes). -/
structure VectorDB where
  index : UsearchIndex
  disk : List (ℕ × List ℚ)

/-- `save_index` of `api/usearch_api.rs`: the atomic temp-file-and-rename write,
whose effect is that the disk snapshot becomes the current entry list. -/
def VectorDB.save_index (db : VectorDB) : VectorDB := ⟨db.index, db.index.entries⟩

/-- `ensure_capacity` of `api/usearch_api.rs`. -/
def VectorDB.ensure_capacity (db : VectorDB) (margin : ℕ) : VectorDB :=
  if db.index.capacity ≤ db.index.size + margin + 1000 then
    ⟨db.index.reserveCap (db.index.size + margin), db.disk⟩
  else db

/-- `contains_vector` of `api/usearch_api.rs`. -/
def VectorDB.contains_vector (db : VectorDB) (key : ℕ) : Bool := db.index.containsKey key

/-- `add_vector` of `api/usearch_api.rs`. -/
def VectorDB.add_vector (db : VectorDB) (key : ℕ) (vector : List ℚ) :
    Except String VectorDB :=
  let db1 :=
    if db.contains_vector key then ⟨(db.index.removeKey key).1, db.disk⟩
    else db.ensure_capacity 1
  match db1.index.addEntry key vector with
  | .error e => .error e
  | .ok idx => .ok (VectorDB.save_index ⟨idx, db1.disk⟩)

/-- The per-pair loop of `bulk_add_vectors`: remove a pre-existing key, then add. -/
def bulk_add_loop : List (ℕ × List ℚ) → UsearchIndex → Except String UsearchIndex
  | [], idx => .ok idx
  | pair :: rest, idx =>
    let idx1 := if idx.containsKey pair.1 then (idx.removeKey pair.1).1 else idx
    match idx1.addEntry pair.1 pair.2 with
    | .error e => .error e
    | .ok idx2 => bulk_add_loop rest idx2

/-- `bulk_add_vectors` of `api/usearch_api.rs` (`keys.iter().zip(vectors.iter())`). -/
def VectorDB.bulk_add_vectors (db : VectorDB) (keys : List ℕ) (vectors : List (List ℚ)) :
    Except String VectorDB :=
  let db1 := db.ensure_capacity keys.length
  match bulk_add_loop (keys.zip vectors) db1.index with
  | .error e => .error e
  | .ok idx => .ok (VectorDB.save_index ⟨idx, db1.disk⟩)

/-- The at-most-one-entry-per-key invariant of the vector store. -/
def keysNodup (entries : List (ℕ × List ℚ)) : Prop :=
  (entries.map Prod.fst).Nodup

/-- A sample one-entry store used to witness the mutator invariants. -/
def sampleDB : VectorDB := ⟨⟨[(1, [5])], 2000⟩, [(1, [5])]⟩

/-- An `f32` value: either an exact finite rational or one of the special values. -/
inductive F32 where
  | finite : ℚ → F32
  | nan : F32
  | inf : F32
  | neg_inf : F32

/-- Rust `f32::is_finite`. -/
def F32.isFinite : F32 → Bool
  | .finite _ => true
  | _ => false

/-- The largest finite `f32` value. -/
def F32_MAX : ℚ := (2 ^ 24 - 1) * 2 ^ 104

/-- The `f32` computation `1.0 - s` (exact on finite values, overflowing to an
infinity past the finite range). -/
def F32.oneSub : F32 → F32
  | .finite q =>
    if F32_MAX < 1 - q then .inf
    else if 1 - q < -F32_MAX then .neg_inf
    else .finite (1 - q)
  | .nan => .nan
  | .inf => .neg_inf
  | .neg_inf => .inf

/-- The loop of Rust `slice::partition_point` / `binary_search_by` on the
distances slice with predicate `distance ≤ max_distance`.  The fuel bounds the
iteration count; starting it at the slice length is enough because
`right - left` strictly decreases. -/
def partition_point_go (distances : List ℚ) (max_distance : ℚ) :
    ℕ → ℕ → ℕ → ℕ
  | 0, left, _ => left
  | fuel + 1, left, right =>
    if left < right then
      let mid := left + (right - left) / 2
      if distances.getD mid 0 ≤ max_distance then
        partition_point_go distances max_distance fuel (mid + 1) right
      else partition_point_go distances max_distance fuel left mid
    else left

/-- Rust `distances.partition_point(|distance| *distance <= max_distance)`. -/
def partition_point (distances : List ℚ) (max_distance : ℚ) : ℕ :=
  partition_point_go distances max_distance distances.length 0 distances.length

/-- `truncate_sorted_matches_within_distance` of `api/usearch_api.rs`. -/
def truncate_sorted_matches_within_distance (keys : List ℕ) (distances : List ℚ)
    (max_distance : ℚ) : List ℕ × List ℚ :=
  let aligned_len := min keys.length distances.length
  let keys1 := keys.take aligned_len
  let distances1 := distances.take aligned_len
  let keep_len := partition_point distances1 max_distance
  (keys1.take keep_len, distances1.take keep_len)

/-- `FAST_SEARCH_STEP_COUNTS` of `api/usearch_api.rs`. -/
def FAST_SEARCH_STEP_COUNTS : List ℕ := [200, 500, 2000, 5000, 10000]

/-- The step loop of `fast_search_vectors_within_distance`.  The external
`Index::search` is the oracle `search`; the result is either the early return
made inside the loop or the final `previous_count`. -/
def fast_search_go (search : ℕ → List ℕ × List ℚ) (index_size : ℕ) (max_distance : ℚ) :
    List ℕ → ℕ → Option (List ℕ × List ℚ) × ℕ
  | [], previous_count => (none, previous_count)
  | step_count :: rest, previous_count =>
    let count := min step_count index_size
    if count ≤ previous_count then
      fast_search_go search index_size max_distance rest previous_count
    else
      let m := search count
      let last_le :=
        match m.2.getLast? with
        | some d => decide (d ≤ max_distance)
        | none => false
      if decide (count < index_size) && last_le then
        fast_search_go search index_size max_distance rest count
      else (some (truncate_sorted_matches_within_distance m.1 m.2 max_distance), count)

/-- `fast_search_vectors_within_distance` of `api/usearch_api.rs`. -/
def fast_search_vectors_within_distance (search : ℕ → List ℕ × List ℚ)
    (index_size : ℕ) (max_distance : ℚ) : List ℕ × List ℚ :=
  if index_size = 0 then ([], [])
  else
    match fast_search_go search index_size max_distance FAST_SEARCH_STEP_COUNTS 0 with
    | (some result, _) => result
    | (none, previous_count) =>
      if previous_count < index_size then
        let m := search index_size
        truncate_sorted_matches_within_distance m.1 m.2 max_distance
      else ([], [])

/-- `approx_search_vectors_within_similarity` of `api/usearch_api.rs`. -/
def approx_search_vectors_within_similarity (search : ℕ → List ℕ × List ℚ)
    (index_size : ℕ) (minimum_similarity : F32) : List ℕ × List ℚ :=
  if index_size = 0 ∨ minimum_similarity.isFinite = false then ([], [])
  else
    match minimum_similarity.oneSub with
    | .finite max_distance =>
      if max_distance < 0 then ([], [])
      else fast_search_vectors_within_distance search index_size max_distance
    | _ => ([], [])

/-! ## Helper lemmas -/

lemma rclamp_mem (v lo hi : ℚ) (h : lo ≤ hi) : lo ≤ rclamp v lo hi ∧ rclamp v lo hi ≤ hi := by
  unfold rclamp
  exact ⟨le_min (le_max_right _ _) h, min_le_right _ _⟩

lemma rclamp_mono (v w lo hi : ℚ) (h : v ≤ w) : rclamp v lo hi ≤ rclamp w lo hi := by
  unfold rclamp
  exact min_le_min (max_le_max h le_rfl) le_rfl

lemma roundHalfEven_intCast (n : ℤ) : roundHalfEven (n : ℚ) = n := by
  unfold roundHalfEven
  norm_num

lemma formatFixed5_def (v : ℚ) :
    formatFixed5 v = toString ((roundHalfEven (v * 100000)).toNat / 100000) ++ "."
      ++ pad5 ((roundHalfEven (v * 100000)).toNat % 100000) := rfl

lemma to_face_segment_def (v : ℚ) :
    to_face_segment v =
      match splitOnceDot (formatFixed5 (rclamp v 0 (999999/1000000))) with
      | some pr => pr.2
      | none => "00000" := rfl

lemma roundHalfEven_high (q : ℚ) (h1 : (999995:ℚ)/1000000 ≤ q) (h2 : q ≤ 999999/1000000) :
    roundHalfEven (q * 100000) = 100000 := by
  have hfloor : ⌊q * 100000⌋ = 99999 := by
    rw [Int.floor_eq_iff]
    push_cast
    constructor <;> nlinarith
  simp only [roundHalfEven]
  rw [hfloor]
  split_ifs with ha hb hcc
  · exfalso
    push_cast at ha
    nlinarith
  · norm_num
  · exact absurd hcc (by decide)
  · norm_num

set_option maxHeartbeats 1000000 in
lemma to_face_segment_high (v : ℚ) (h : 999995/1000000 ≤ v) : to_face_segment v = ("00000") := by
  have hc1 : (999995:ℚ)/1000000 ≤ rclamp v 0 (999999/1000000) := by
    unfold rclamp
    exact le_min (le_trans h (le_max_left _ _)) (by norm_num)
  have hc2 : rclamp v 0 (999999/1000000) ≤ 999999/1000000 := by
    unfold rclamp
    exact min_le_right _ _
  rw [to_face_segment_def, formatFixed5_def, roundHalfEven_high _ hc1 hc2]
  decide

/-! ## C4: face identity derivation -/

set_option maxHeartbeats 2000000 in
/-- C4. The face identity is deterministic in `(file_id, box_xyxy)` (it is a pure
function of them, decomposing into the file id and the four formatted, clamped,
dot-stripped segments), and on `file_id = 42`, `box = [0.1, 0.2, 0.3, 0.4]` it
yields the string of the spec scenario. -/
theorem to_face_id_spec :
    to_face_id 42 ⟨1/10, 2/10, 3/10, 4/10⟩ = ("42_10000_20000_30000_40000")
    ∧ ∀ (fid : ℤ) (b : Box4),
        to_face_id fid b = toString fid ++ "_" ++ to_face_segment b.x1 ++ "_"
          ++ to_face_segment b.y1 ++ "_" ++ to_face_segment b.x2 ++ "_"
          ++ to_face_segment b.y2 := by
  constructor
  · have s1 : to_face_segment (1/10) = ("10000") := by
      rw [to_face_segment_def, formatFixed5_def,
          show rclamp (1/10) 0 (999999/1000000) = (1/10 : ℚ) from by
            unfold rclamp; norm_num [min_def, max_def],
          show ((1:ℚ)/10 * 100000) = ((10000:ℤ):ℚ) from by norm_num,
          roundHalfEven_intCast]
      decide
    have s2 : to_face_segment (2/10) = ("20000") := by
      rw [to_face_segment_def, formatFixed5_def,
          show rclamp (2/10) 0 (999999/1000000) = (2/10 : ℚ) from by
            unfold rclamp; norm_num [min_def, max_def],
          show ((2:ℚ)/10 * 100000) = ((20000:ℤ):ℚ) from by norm_num,
          roundHalfEven_intCast]
      decide
    have s3 : to_face_segment (3/10) = ("30000") := by
      rw [to_face_segment_def, formatFixed5_def,
          show rclamp (3/10) 0 (999999/1000000) = (3/10 : ℚ) from by
            unfold rclamp; norm_num [min_def, max_def],
          show ((3:ℚ)/10 * 100000) = ((30000:ℤ):ℚ) from by norm_num,
          roundHalfEven_intCast]
      decide
    have s4 : to_face_segment (4/10) = ("40000") := by
      rw [to_face_segment_def, formatFixed5_def,
          show rclamp (4/10) 0 (999999/1000000) = (4/10 : ℚ) from by
            unfold rclamp; norm_num [min_def, max_def],
          show ((4:ℚ)/10 * 100000) = ((40000:ℤ):ℚ) from by norm_num,
          roundHalfEven_intCast]
      decide
    show to_face_id 42 ⟨1/10, 2/10, 3/10, 4/10⟩ = ("42_10000_20000_30000_40000")
    rw [to_face_id]
    dsimp only
    rw [s1, s2, s3, s4]
    decide
  · intro fid b
    rfl

/-! ## C9: face-id upper-boundary collision -/

set_option maxHeartbeats 1000000 in
/-- C9. Near the upper boundary the face-id segment collapses: every coordinate
at least 0.999995 is clamped to the 0.999999 literal and formatted as 1.00000,
whose fractional part equals the segment of 0.0, so two distinct boxes give the
same face id. -/
theorem to_face_id_high_collision :
    ∀ (fid : ℤ) (v : ℚ) (b : Box4), 999995/1000000 ≤ v →
      to_face_segment v = ("00000") ∧ to_face_segment 0 = ("00000")
      ∧ to_face_id fid ⟨v, b.y1, b.x2, b.y2⟩ = to_face_id fid ⟨0, b.y1, b.x2, b.y2⟩ := by
  intro fid v b h
  have h1 : to_face_segment v = ("00000") := to_face_segment_high v h
  have h0 : to_face_segment (0 : ℚ) = ("00000") := by
    rw [to_face_segment_def, formatFixed5_def,
        show rclamp 0 0 (999999/1000000) = ((0:ℤ):ℚ) from by
          unfold rclamp; norm_num [min_def, max_def],
        show (((0:ℤ):ℚ) * 100000) = ((0:ℤ):ℚ) from by push_cast; ring,
        roundHalfEven_intCast]
    decide
  refine ⟨h1, h0, ?_⟩
  unfold to_face_id
  dsimp only
  rw [h1, h0]

/-- Witness for C9 at `v = 1`: the boxes `[1, 0, 0, 0]` and `[0, 0, 0, 0]` of
file 7 collide. -/
theorem to_face_id_high_collision_witness :
    to_face_segment 1 = ("00000") ∧ to_face_segment 0 = ("00000")
    ∧ to_face_id 7 ⟨1, 0, 0, 0⟩ = to_face_id 7 ⟨0, 0, 0, 0⟩ :=
  to_face_id_high_collision 7 1 ⟨0, 0, 0, 0⟩ (by norm_num)

/-! ## C8: crop rectangle scenario -/

/-- C8. The crop computation for a 100 x 80 image and the centred face box
`(0.25, 0.25, 0.5, 0.5)` yields crop `(5, 4, 90, 72)` with output `90 x 72`
(the 0.4 padding fits inside the image, so no padding reduction applies). -/
theorem compute_crop_rect_center_example :
    compute_crop_rect ⟨1/4, 1/4, 1/2, 1/2⟩ 100 80 = .ok ⟨5, 4, 90, 72, 90, 72⟩ := by
  unfold compute_crop_rect
  norm_num [REGULAR_PADDING, MINIMUM_PADDING, rclamp, float_to_output_dimension,
    min_def, max_def]
  decide

/-! ## C10: thumbnail generation with an empty face-box list -/

/-- C10. With an empty face-box list `generate_face_thumbnails` returns an empty
Ok result for every decoded image (zero-sized ones included): the empty check
precedes the zero-dimension check, so that Decode error needs a non-empty list. -/
theorem generate_face_thumbnails_empty_boxes :
    ∀ resizeOracle encodeOracle (decoded : DecodedImage),
      generate_face_thumbnails resizeOracle encodeOracle decoded [] = .ok [] := by
  intro resizeOracle encodeOracle decoded
  simp [generate_face_thumbnails]

/-! ## C7: request validation -/

/-- C7. Validation fails with InvalidRequest exactly when the missing-path list
is non-empty; that list contains precisely the labels of the required blank
paths (face detection and embedding when faces run, CLIP when CLIP runs) and the
message lists all of them; the spec scenario (faces requested, blank detection
path) produces the message naming faceDetectionModelPath. -/
theorem validate_request_model_paths_spec :
    (∀ req, validate_request_model_paths req =
      (if missing_model_paths req = [] then .ok ()
       else .error (.InvalidRequest (("missing required model paths: ")
         ++ String.intercalate (", ") (missing_model_paths req)))))
    ∧ (∀ req p, p ∈ missing_model_paths req ↔
        ((p = ("faceDetectionModelPath") ∧ req.run_faces = true
            ∧ trim_is_empty req.model_paths.face_detection = true)
          ∨ (p = ("faceEmbeddingModelPath") ∧ req.run_faces = true
            ∧ trim_is_empty req.model_paths.face_embedding = true)
          ∨ (p = ("clipImageModelPath") ∧ req.run_clip = true
            ∧ trim_is_empty req.model_paths.clip_image = true)))
    ∧ validate_request_model_paths
        ⟨42, ("img.jpg"), true, false, ⟨(""), ("model.onnx"), ("")⟩, ⟨true, true, false, true⟩⟩
      = .error (.InvalidRequest ("missing required model paths: faceDetectionModelPath")) := by
  have e1 : missing_model_paths
      ⟨42, ("img.jpg"), true, false, ⟨(""), ("model.onnx"), ("")⟩,
       ⟨true, true, false, true⟩⟩ = [("faceDetectionModelPath")] := by decide
  have e2 : ("missing required model paths: ")
      ++ String.intercalate (", ") [("faceDetectionModelPath")]
      = ("missing required model paths: faceDetectionModelPath") := by decide
  refine ⟨?_, ?_, ?_⟩
  · intro req
    unfold validate_request_model_paths
    cases h : missing_model_paths req with
    | nil => simp
    | cons a l => simp
  · intro req p
    unfold missing_model_paths
    cases hf : req.run_faces <;> cases hc : req.run_clip <;>
      cases h1 : trim_is_empty req.model_paths.face_detection <;>
      cases h2 : trim_is_empty req.model_paths.face_embedding <;>
      cases h3 : trim_is_empty req.model_paths.clip_image <;>
      simp [hf, hc, h1, h2, h3]
  · simp [validate_request_model_paths, e1, e2]

/-! ## C6: non-maximum suppression -/

lemma calculate_iou_comm (a b : FaceDetection) : calculate_iou a b = calculate_iou b a := by
  simp only [calculate_iou]
  rw [max_comm a.box_xyxy.x1 b.box_xyxy.x1, max_comm a.box_xyxy.y1 b.box_xyxy.y1,
    min_comm a.box_xyxy.x2 b.box_xyxy.x2, min_comm a.box_xyxy.y2 b.box_xyxy.y2,
    add_comm (max (a.box_xyxy.x2 - a.box_xyxy.x1) 0 * max (a.box_xyxy.y2 - a.box_xyxy.y1) 0)
      (max (b.box_xyxy.x2 - b.box_xyxy.x1) 0 * max (b.box_xyxy.y2 - b.box_xyxy.y1) 0)]

lemma mem_insertByScoreDesc {e d : FaceDetection} {l : List FaceDetection} :
    e ∈ insertByScoreDesc d l ↔ e = d ∨ e ∈ l := by
  induction l with
  | nil => simp [insertByScoreDesc]
  | cons a t ih =>
    simp only [insertByScoreDesc]
    split_ifs with h
    · simp
    · simp only [List.mem_cons, ih]
      tauto

lemma mem_sortByScoreDesc {e : FaceDetection} {l : List FaceDetection} :
    e ∈ sortByScoreDesc l ↔ e ∈ l := by
  induction l with
  | nil => simp [sortByScoreDesc]
  | cons a t ih =>
    simp only [sortByScoreDesc, mem_insertByScoreDesc, ih, List.mem_cons]

lemma length_sortByScoreDesc (l : List FaceDetection) :
    (sortByScoreDesc l).length = l.length := by
  have hi : ∀ (d : FaceDetection) (m : List FaceDetection),
      (insertByScoreDesc d m).length = m.length + 1 := by
    intro d m
    induction m with
    | nil => simp [insertByScoreDesc]
    | cons a t ih =>
      simp only [insertByScoreDesc]
      split_ifs with h
      · simp
      · simp [ih]
  induction l with
  | nil => simp [sortByScoreDesc]
  | cons a t ih => simp [sortByScoreDesc, hi, ih]

lemma nmsFuel_subset (thr : ℚ) :
    ∀ (fuel : ℕ) (l : List FaceDetection) (d : FaceDetection),
      d ∈ nmsFuel thr fuel l → d ∈ l := by
  intro fuel
  induction fuel with
  | zero => intro l d h; simpa [nmsFuel] using h
  | succ n ih =>
    intro l d h
    cases l with
    | nil => simpa [nmsFuel] using h
    | cons a t =>
      simp only [nmsFuel, List.mem_cons] at h
      rcases h with h | h
      · exact h ▸ List.mem_cons_self a t
      · exact List.mem_cons_of_mem a (List.mem_of_mem_filter (ih _ _ h))

lemma nmsFuel_pairwise (thr : ℚ) :
    ∀ (fuel : ℕ) (l : List FaceDetection), l.length ≤ fuel →
      (nmsFuel thr fuel l).Pairwise (fun a b => calculate_iou a b < thr) := by
  intro fuel
  induction fuel with
  | zero =>
    intro l hl
    rw [List.length_eq_zero.mp (Nat.le_zero.mp hl)]
    simp [nmsFuel]
  | succ n ih =>
    intro l hl
    cases l with
    | nil => simp [nmsFuel]
    | cons d t =>
      simp only [nmsFuel]
      refine List.Pairwise.cons ?_ (ih _ ?_)
      · intro e he
        have hmem := nmsFuel_subset thr n _ e he
        have := List.of_mem_filter hmem
        simpa using this
      · calc (t.filter fun e => decide (calculate_iou d e < thr)).length
            ≤ t.length := List.length_filter_le _ _
          _ ≤ n := Nat.succ_le_succ_iff.mp hl

/-- C6. Non-maximum suppression: in the returned list no two detections have an
IoU of at least the 0.4 threshold with each other (in either orientation, the
IoU being symmetric); the function sorts by descending score and greedily drops
later detections against each kept one. -/
theorem naive_non_max_suppression_no_overlap :
    ∀ (detections : List FaceDetection),
      (naive_non_max_suppression detections IOU_THRESHOLD).Pairwise
        (fun a b => calculate_iou a b < IOU_THRESHOLD ∧ calculate_iou b a < IOU_THRESHOLD) := by
  intro detections
  unfold naive_non_max_suppression
  refine (nmsFuel_pairwise IOU_THRESHOLD _ _ le_rfl).imp ?_
  intro a b h
  exact ⟨h, calculate_iou_comm a b ▸ h⟩

/-! ## C1: face detector postprocessing -/

lemma run_face_detection_post_def (data : List ℚ) (sw sh : ℕ) :
    run_face_detection_post data sw sh =
      if data.length < 16 then .error (.Postprocess ("unexpected face detector output size"))
      else .ok (naive_non_max_suppression
        ((List.range (data.length / 16)).filterMap
          (fun i => detectionFromRow (fun j => data.getD (i * 16 + j) 0) sw sh))
        IOU_THRESHOLD) := rfl

lemma detectionFromRow_def (row : ℕ → ℚ) (sw sh : ℕ) :
    detectionFromRow row sw sh =
      if row 4 < MIN_SCORE_THRESHOLD then none
      else
        some ⟨row 4,
          (correct_for_maintained_aspect
            ⟨(row 0 - row 2 / 2) / INPUT_WIDTH, (row 1 - row 3 / 2) / INPUT_HEIGHT,
             (row 0 + row 2 / 2) / INPUT_WIDTH, (row 1 + row 3 / 2) / INPUT_HEIGHT⟩
            [(row 5 / INPUT_WIDTH, row 6 / INPUT_HEIGHT),
             (row 7 / INPUT_WIDTH, row 8 / INPUT_HEIGHT),
             (row 9 / INPUT_WIDTH, row 10 / INPUT_HEIGHT),
             (row 11 / INPUT_WIDTH, row 12 / INPUT_HEIGHT),
             (row 13 / INPUT_WIDTH, row 14 / INPUT_HEIGHT)] sw sh).1,
          (correct_for_maintained_aspect
            ⟨(row 0 - row 2 / 2) / INPUT_WIDTH, (row 1 - row 3 / 2) / INPUT_HEIGHT,
             (row 0 + row 2 / 2) / INPUT_WIDTH, (row 1 + row 3 / 2) / INPUT_HEIGHT⟩
            [(row 5 / INPUT_WIDTH, row 6 / INPUT_HEIGHT),
             (row 7 / INPUT_WIDTH, row 8 / INPUT_HEIGHT),
             (row 9 / INPUT_WIDTH, row 10 / INPUT_HEIGHT),
             (row 11 / INPUT_WIDTH, row 12 / INPUT_HEIGHT),
             (row 13 / INPUT_WIDTH, row 14 / INPUT_HEIGHT)] sw sh).2⟩ := rfl

lemma correct_for_maintained_aspect_def (box : Box4) (kps : List (ℚ × ℚ)) (sw sh : ℕ) :
    correct_for_maintained_aspect box kps sw sh =
      if sw = 640 ∧ sh = 640 then (box, kps)
      else
        (⟨scaleClamp01 box.x1 sw, scaleClamp01 box.y1 sh,
          scaleClamp01 box.x2 sw, scaleClamp01 box.y2 sh⟩,
         kps.map (fun p => (scaleClamp01 p.1 sw, scaleClamp01 p.2 sh))) := rfl

lemma scaleClamp01_mem (v : ℚ) (s : ℕ) (hs : s ≠ 0) :
    0 ≤ scaleClamp01 v s ∧ scaleClamp01 v s ≤ 1 := by
  unfold scaleClamp01
  rw [if_neg hs]
  exact rclamp_mem _ 0 1 (by norm_num)

lemma scaleClamp01_mono (v w : ℚ) (s : ℕ) (hs : s ≠ 0) (h : v ≤ w) :
    scaleClamp01 v s ≤ scaleClamp01 w s := by
  unfold scaleClamp01
  rw [if_neg hs, if_neg hs]
  refine rclamp_mono _ _ _ _ (mul_le_mul_of_nonneg_right h ?_)
  rw [INPUT_WIDTH]
  positivity

lemma naive_non_max_suppression_def (l : List FaceDetection) (thr : ℚ) :
    naive_non_max_suppression l thr = nmsFuel thr (sortByScoreDesc l).length (sortByScoreDesc l) :=
  rfl

lemma run_face_detection_post_single (data : List ℚ) (sw sh : ℕ) (d : FaceDetection)
    (hlen : data.length = 16)
    (hrow : detectionFromRow (fun j => data.getD (0 * 16 + j) 0) sw sh = some d) :
    run_face_detection_post data sw sh = .ok [d] := by
  rw [run_face_detection_post_def, hlen]
  rw [if_neg (by norm_num)]
  rw [show (16:ℕ) / 16 = 1 from rfl, show List.range 1 = [0] from rfl, List.filterMap_cons]
  rw [hrow]
  rfl

/-- C1 counterexample.  At letterboxed size exactly 640 x 640 no clamping is
applied, so a raw row far off the tensor yields a detection with `x_min < 0`
(refuting the all-coordinates-in-`[0,1]` part); and a raw row with negative
width yields `x_max < x_min` even on the clamped path (refuting the box-order
part). -/
theorem face_detection_claim_counterexample :
    ¬ face_detection_claim
    ∧ run_face_detection_post rawRowB 320 640 = .ok [detB]
    ∧ detB.box_xyxy.x2 < detB.box_xyxy.x1 := by
  have e2 : rawRowA.getD (0 * 16 + 4) 0 = (1:ℚ) := rfl
  have hrowA : detectionFromRow (fun j => rawRowA.getD (0 * 16 + j) 0) 640 640 = some detA := by
    rw [detectionFromRow_def]
    rw [if_neg (by rw [e2]; norm_num [MIN_SCORE_THRESHOLD])]
    rw [correct_for_maintained_aspect_def, if_pos ⟨rfl, rfl⟩]
    simp only [detA, FaceDetection.mk.injEq, Box4.mk.injEq, Prod.mk.injEq,
      List.cons.injEq, Option.some.injEq]
    norm_num [rawRowA, INPUT_WIDTH, INPUT_HEIGHT]
  have hokA : run_face_detection_post rawRowA 640 640 = .ok [detA] :=
    run_face_detection_post_single rawRowA 640 640 detA rfl hrowA
  have hrowB : detectionFromRow (fun j => rawRowB.getD (0 * 16 + j) 0) 320 640 = some detB := by
    rw [detectionFromRow_def]
    rw [if_neg (by
      rw [show rawRowB.getD (0 * 16 + 4) 0 = (1:ℚ) from rfl]
      norm_num [MIN_SCORE_THRESHOLD])]
    rw [correct_for_maintained_aspect_def, if_neg (by norm_num)]
    simp only [detB, FaceDetection.mk.injEq, Box4.mk.injEq, Prod.mk.injEq,
      List.cons.injEq, Option.some.injEq, List.map_cons, List.map_nil]
    norm_num [rawRowB, INPUT_WIDTH, INPUT_HEIGHT, scaleClamp01, rclamp, min_def, max_def]
  have hokB : run_face_detection_post rawRowB 320 640 = .ok [detB] :=
    run_face_detection_post_single rawRowB 320 640 detB rfl hrowB
  refine ⟨?_, hokB, by norm_num [detB]⟩
  intro hcl
  have h := hcl rawRowA 640 640 [detA] hokA detA (by simp)
  have hx := (h.1 detA.box_xyxy.x1 (by simp [detectionCoords])).1
  norm_num [detA] at hx

/-- C1 amended.  Every returned detection has score at least 0.5; whenever the
letterboxed size differs from 640 x 640 (so the clamping correction applies) and
both scaled dimensions are nonzero, all box and keypoint coordinates lie in
`[0,1]`; and when every raw row has nonnegative width and height entries and
both scaled dimensions are nonzero, the box ordering holds.  A zero scaled
dimension is reachable (see the C5 correction) and excluded: there the source's
f32 arithmetic divides 640.0 by zero, and the infinite scale turns a zero raw
coordinate into NaN, which the clamp propagates, so neither normalization nor
ordering holds in the program. -/
theorem run_face_detection_post_amended :
    ∀ (output_data : List ℚ) (scaled_width scaled_height : ℕ) dets,
      run_face_detection_post output_data scaled_width scaled_height = .ok dets →
      ∀ d ∈ dets,
        MIN_SCORE_THRESHOLD ≤ d.score
        ∧ (¬(scaled_width = 640 ∧ scaled_height = 640) →
            scaled_width ≠ 0 → scaled_height ≠ 0 →
            ∀ c ∈ detectionCoords d, 0 ≤ c ∧ c ≤ 1)
        ∧ ((∀ i : ℕ, 0 ≤ output_data.getD (i * 16 + 2) 0
              ∧ 0 ≤ output_data.getD (i * 16 + 3) 0) →
            scaled_width ≠ 0 → scaled_height ≠ 0 →
            d.box_xyxy.x1 ≤ d.box_xyxy.x2 ∧ d.box_xyxy.y1 ≤ d.box_xyxy.y2) := by
  intro data sw sh dets hok d hd
  rw [run_face_detection_post_def] at hok
  by_cases hlen : data.length < 16
  · rw [if_pos hlen] at hok
    exact absurd hok (by simp)
  · rw [if_neg hlen] at hok
    injection hok with hdets
    subst hdets
    rw [naive_non_max_suppression_def] at hd
    have hd1 : d ∈ sortByScoreDesc _ := nmsFuel_subset IOU_THRESHOLD _ _ d hd
    have hd2 := mem_sortByScoreDesc.mp hd1
    rw [List.mem_filterMap] at hd2
    obtain ⟨i, hi, hrow⟩ := hd2
    rw [List.mem_range] at hi
    rw [detectionFromRow_def] at hrow
    by_cases hscore : data.getD (i * 16 + 4) 0 < MIN_SCORE_THRESHOLD
    · rw [if_pos hscore] at hrow
      exact absurd hrow (by simp)
    · rw [if_neg hscore] at hrow
      injection hrow with hd3
      subst hd3
      refine ⟨not_lt.mp hscore, ?_, ?_⟩
      · intro hne hsw hsh c hc
        rw [correct_for_maintained_aspect_def, if_neg hne] at hc
        simp only [detectionCoords, List.map_cons, List.map_nil, List.flatten,
          List.mem_append, List.mem_cons, List.not_mem_nil, or_false, List.append_nil,
          List.append_assoc, List.cons_append, List.nil_append] at hc
        rcases hc with hc | hc | hc | hc | hc | hc | hc | hc | hc | hc | hc | hc | hc | hc <;>
          subst hc <;>
          first
            | exact scaleClamp01_mem _ _ hsw
            | exact scaleClamp01_mem _ _ hsh
      · intro hnn hsw hsh
        have h2 := (hnn i).1
        have h3 := (hnn i).2
        have hx : (data.getD (i * 16 + 0) 0 - data.getD (i * 16 + 2) 0 / 2) / INPUT_WIDTH
            ≤ (data.getD (i * 16 + 0) 0 + data.getD (i * 16 + 2) 0 / 2) / INPUT_WIDTH := by
          rw [INPUT_WIDTH, div_le_div_iff₀ (by norm_num) (by norm_num)]
          linarith
        have hy : (data.getD (i * 16 + 1) 0 - data.getD (i * 16 + 3) 0 / 2) / INPUT_HEIGHT
            ≤ (data.getD (i * 16 + 1) 0 + data.getD (i * 16 + 3) 0 / 2) / INPUT_HEIGHT := by
          rw [INPUT_HEIGHT, div_le_div_iff₀ (by norm_num) (by norm_num)]
          linarith
        rw [correct_for_maintained_aspect_def]
        split_ifs with h640
        · exact ⟨hx, hy⟩
        · exact ⟨scaleClamp01_mono _ _ _ hsw hx, scaleClamp01_mono _ _ _ hsh hy⟩

/-- Witness for the amended C1 on a concrete well-formed raw row at letterboxed
size 320 x 320. -/
theorem run_face_detection_post_amended_witness :
    run_face_detection_post rawRowC 320 320 = .ok [detC]
    ∧ (MIN_SCORE_THRESHOLD ≤ detC.score
      ∧ (¬((320:ℕ) = 640 ∧ (320:ℕ) = 640) → (320:ℕ) ≠ 0 → (320:ℕ) ≠ 0 →
          ∀ c ∈ detectionCoords detC, 0 ≤ c ∧ c ≤ 1)
      ∧ ((∀ i : ℕ, 0 ≤ rawRowC.getD (i * 16 + 2) 0 ∧ 0 ≤ rawRowC.getD (i * 16 + 3) 0) →
          (320:ℕ) ≠ 0 → (320:ℕ) ≠ 0 →
          detC.box_xyxy.x1 ≤ detC.box_xyxy.x2 ∧ detC.box_xyxy.y1 ≤ detC.box_xyxy.y2)) := by
  have hrowC : detectionFromRow (fun j => rawRowC.getD (0 * 16 + j) 0) 320 320 = some detC := by
    rw [detectionFromRow_def]
    rw [if_neg (by
      rw [show rawRowC.getD (0 * 16 + 4) 0 = (1:ℚ) from rfl]
      norm_num [MIN_SCORE_THRESHOLD])]
    rw [correct_for_maintained_aspect_def, if_neg (by norm_num)]
    simp only [detC, FaceDetection.mk.injEq, Box4.mk.injEq, Prod.mk.injEq,
      List.cons.injEq, Option.some.injEq, List.map_cons, List.map_nil]
    norm_num [rawRowC, INPUT_WIDTH, INPUT_HEIGHT, scaleClamp01, rclamp, min_def, max_def]
  have hokC : run_face_detection_post rawRowC 320 320 = .ok [detC] :=
    run_face_detection_post_single rawRowC 320 320 detC rfl hrowC
  exact ⟨hokC, run_face_detection_post_amended rawRowC 320 320 [detC] hokC detC (by simp)⟩

/-! ## C5: YOLO preprocessing -/

lemma yolo_pixel_pad (decoded : DecodedImage) (scale : ℚ) (sw sh x y plane : ℕ)
    (hx : x < 640) (hy : y < 640) (hpad : sw ≤ x ∨ sh ≤ y) :
    yolo_pixel decoded scale sw sh (plane * (640 * 640) + y * 640 + x) = PAD_VALUE / 255 := by
  have e1 : (plane * (640 * 640) + y * 640 + x) % (640 * 640) % 640 = x := by
    have h6 : (640 * 640 : ℕ) = 409600 := rfl
    rw [h6]
    omega
  have e2 : (plane * (640 * 640) + y * 640 + x) % (640 * 640) / 640 = y := by
    have h6 : (640 * 640 : ℕ) = 409600 := rfl
    rw [h6]
    omega
  simp only [yolo_pixel]
  rw [e1, e2, if_pos hpad]
  split_ifs <;> rfl

/-- C5 counterexample.  For a 1 x 1281 image the computed scaled width is 0: the
code clamps `round(src * scale)` to `[0, 640]`, not to `[1, 640]` as claimed
(the claimed formula would give 1). -/
theorem preprocess_yolo_claim_counterexample :
    yolo_scaled_dims ⟨⟨1, 1281⟩, []⟩ = some (0, 640)
    ∧ (min (max (rustRound ((1:ℚ) * min (640 / (1:ℚ)) (640 / (1281:ℚ)))) 1) 640).toNat = 1 := by
  constructor
  · unfold yolo_scaled_dims
    unfold preprocess_yolo
    rw [if_neg (by norm_num)]
    trans some
      ((min (max (rustRound ((((1:ℕ)):ℚ) * min (640 / (((1:ℕ)):ℚ)) (640 / (((1281:ℕ)):ℚ)))) 0) 640).toNat,
       (min (max (rustRound ((((1281:ℕ)):ℚ) * min (640 / (((1:ℕ)):ℚ)) (640 / (((1281:ℕ)):ℚ)))) 0) 640).toNat)
    · rfl
    · have hmin : min (640 / (((1:ℕ)):ℚ)) (640 / (((1281:ℕ)):ℚ)) = 640 / 1281 := by
        norm_num [min_def]
      rw [hmin]
      have hr1 : rustRound ((((1:ℕ)):ℚ) * (640 / 1281)) = 0 := by
        rw [rustRound, if_neg (by norm_num)]
        norm_num
      have hr2 : rustRound ((((1281:ℕ)):ℚ) * (640 / 1281)) = 640 := by
        rw [rustRound, if_neg (by norm_num)]
        norm_num
      rw [hr1, hr2]
      norm_num
      rfl
  · have hmin : min (640 / (1:ℚ)) (640 / (1281:ℚ)) = 640 / 1281 := by
      norm_num [min_def]
    rw [hmin]
    have hr1 : rustRound ((1:ℚ) * (640 / 1281)) = 0 := by
      rw [rustRound, if_neg (by norm_num)]
      norm_num
    rw [hr1]
    norm_num

/-- C5 amended.  For every image with positive dimensions `preprocess_yolo`
succeeds with `scale = min(640/w, 640/h)` and scaled dimensions
`round(src * scale)` clamped to `[0, 640]` (not `[1, 640]`: the rounded value 0
survives), and every tensor position with `x ≥ scaled_w` or `y ≥ scaled_h` holds
the constant `114/255` in all three planes. -/
theorem preprocess_yolo_amended :
    ∀ decoded : DecodedImage,
      0 < decoded.dimensions.width → 0 < decoded.dimensions.height →
      ∃ (output : ℕ → ℚ) (scaled_width scaled_height : ℕ),
        preprocess_yolo decoded = .ok (output, scaled_width, scaled_height)
        ∧ scaled_width = (min (max (rustRound ((decoded.dimensions.width : ℚ) *
            min (640 / (decoded.dimensions.width : ℚ)) (640 / (decoded.dimensions.height : ℚ)))) 0)
            640).toNat
        ∧ scaled_height = (min (max (rustRound ((decoded.dimensions.height : ℚ) *
            min (640 / (decoded.dimensions.width : ℚ)) (640 / (decoded.dimensions.height : ℚ)))) 0)
            640).toNat
        ∧ ∀ plane x y : ℕ, plane < 3 → x < 640 → y < 640 →
            (scaled_width ≤ x ∨ scaled_height ≤ y) →
            output (plane * (640 * 640) + y * 640 + x) = PAD_VALUE / 255 := by
  intro dec hw hh
  unfold preprocess_yolo
  rw [if_neg (by omega)]
  refine ⟨_, _, _, rfl, rfl, rfl, ?_⟩
  intro plane x y hp hx hy hpad
  exact yolo_pixel_pad dec _ _ _ x y plane hx hy hpad

/-- Witness for the amended C5 at a concrete 1 x 1 image. -/
theorem preprocess_yolo_amended_witness :
    ∃ (output : ℕ → ℚ) (scaled_width scaled_height : ℕ),
      preprocess_yolo ⟨⟨1, 1⟩, [10, 20, 30]⟩ = .ok (output, scaled_width, scaled_height)
      ∧ scaled_width = (min (max (rustRound ((((1:ℕ)):ℚ) *
          min (640 / (((1:ℕ)):ℚ)) (640 / (((1:ℕ)):ℚ)))) 0) 640).toNat
      ∧ scaled_height = (min (max (rustRound ((((1:ℕ)):ℚ) *
          min (640 / (((1:ℕ)):ℚ)) (640 / (((1:ℕ)):ℚ)))) 0) 640).toNat
      ∧ ∀ plane x y : ℕ, plane < 3 → x < 640 → y < 640 →
          (scaled_width ≤ x ∨ scaled_height ≤ y) →
          output (plane * (640 * 640) + y * 640 + x) = PAD_VALUE / 255 :=
  preprocess_yolo_amended ⟨⟨1, 1⟩, [10, 20, 30]⟩ (by norm_num) (by norm_num)

/-! ## C2: vector store mutators -/

lemma keysNodup_filter (entries : List (ℕ × List ℚ)) (key : ℕ) (h : keysNodup entries) :
    keysNodup (entries.filter (fun e => decide (e.1 ≠ key))) :=
  List.Nodup.sublist ((List.filter_sublist entries).map Prod.fst) h

lemma not_mem_keys_filter (entries : List (ℕ × List ℚ)) (key : ℕ) :
    key ∉ (entries.filter (fun e => decide (e.1 ≠ key))).map Prod.fst := by
  intro hmem
  rw [List.mem_map] at hmem
  obtain ⟨e, he, hfst⟩ := hmem
  have := List.of_mem_filter he
  simp only [decide_eq_true_eq] at this
  exact this hfst

lemma containsKey_false_filter_eq (idx : UsearchIndex) (key : ℕ)
    (h : idx.containsKey key = false) :
    idx.entries.filter (fun e => decide (e.1 ≠ key)) = idx.entries := by
  apply List.filter_eq_self.mpr
  intro e he
  simp only [decide_eq_true_eq]
  intro hfst
  have : idx.entries.any (fun e => e.1 == key) = true :=
    List.any_eq_true.mpr ⟨e, he, by simp [hfst]⟩
  rw [UsearchIndex.containsKey] at h
  rw [h] at this
  cases this

lemma containsKey_false_not_mem (idx : UsearchIndex) (key : ℕ)
    (h : idx.containsKey key = false) :
    key ∉ idx.entries.map Prod.fst := by
  intro hmem
  rw [List.mem_map] at hmem
  obtain ⟨e, he, hfst⟩ := hmem
  have : idx.entries.any (fun e => e.1 == key) = true :=
    List.any_eq_true.mpr ⟨e, he, by simp [hfst]⟩
  rw [UsearchIndex.containsKey] at h
  rw [h] at this
  cases this

lemma keysNodup_append_new (entries : List (ℕ × List ℚ)) (key : ℕ) (v : List ℚ)
    (h : keysNodup entries) (hk : key ∉ entries.map Prod.fst) :
    keysNodup (entries ++ [(key, v)]) := by
  rw [keysNodup, List.map_append]
  rw [List.nodup_append]
  refine ⟨h, by simp, ?_⟩
  intro a ha
  simp only [List.map_cons, List.map_nil, List.mem_singleton]
  intro hae
  exact hk (hae ▸ ha)

lemma removeKey_fst_entries (idx : UsearchIndex) (key : ℕ) :
    ((idx.removeKey key).1).entries = idx.entries.filter (fun e => decide (e.1 ≠ key)) := rfl

lemma removeKey_fst_capacity (idx : UsearchIndex) (key : ℕ) :
    ((idx.removeKey key).1).capacity = idx.capacity := rfl

lemma addEntry_ok (idx : UsearchIndex) (key : ℕ) (v : List ℚ)
    (h : idx.entries.length < idx.capacity) :
    idx.addEntry key v = .ok ⟨idx.entries ++ [(key, v)], idx.capacity⟩ := by
  unfold UsearchIndex.addEntry
  rw [if_neg (by omega)]

lemma ensure_capacity_entries (db : VectorDB) (m : ℕ) :
    (db.ensure_capacity m).index.entries = db.index.entries := by
  unfold VectorDB.ensure_capacity
  split_ifs <;> rfl

lemma ensure_capacity_disk (db : VectorDB) (m : ℕ) :
    (db.ensure_capacity m).disk = db.disk := by
  unfold VectorDB.ensure_capacity
  split_ifs <;> rfl

lemma ensure_capacity_cap (db : VectorDB) (m : ℕ) :
    db.index.size + m ≤ (db.ensure_capacity m).index.capacity := by
  unfold VectorDB.ensure_capacity
  split_ifs with h
  · simp only [UsearchIndex.reserveCap]
    exact le_max_right _ _
  · rw [UsearchIndex.size] at h ⊢
    omega

lemma bulk_add_loop_cons (p : ℕ × List ℚ) (rest : List (ℕ × List ℚ)) (idx : UsearchIndex) :
    bulk_add_loop (p :: rest) idx =
      match (if idx.containsKey p.1 then (idx.removeKey p.1).1 else idx).addEntry p.1 p.2 with
      | .error e => .error e
      | .ok idx2 => bulk_add_loop rest idx2 := rfl

lemma add_vector_def (db : VectorDB) (key : ℕ) (vector : List ℚ) :
    db.add_vector key vector =
      match (if db.contains_vector key then (⟨(db.index.removeKey key).1, db.disk⟩ : VectorDB)
             else db.ensure_capacity 1).index.addEntry key vector with
      | .error e => .error e
      | .ok idx => .ok (VectorDB.save_index ⟨idx,
          (if db.contains_vector key then (⟨(db.index.removeKey key).1, db.disk⟩ : VectorDB)
           else db.ensure_capacity 1).disk⟩) := rfl

lemma bulk_add_loop_ok :
    ∀ (pairs : List (ℕ × List ℚ)) (idx : UsearchIndex),
      keysNodup idx.entries →
      idx.entries.length + pairs.length ≤ idx.capacity →
      ∃ idx2, bulk_add_loop pairs idx = .ok idx2 ∧ keysNodup idx2.entries
        ∧ idx2.capacity = idx.capacity
        ∧ idx2.entries.length ≤ idx.entries.length + pairs.length := by
  intro pairs
  induction pairs with
  | nil =>
    intro idx h1 h2
    exact ⟨idx, rfl, h1, rfl, by omega⟩
  | cons p rest ih =>
    intro idx h1 h2
    have h2a : idx.entries.length + rest.length + 1 ≤ idx.capacity := by
      simp only [List.length_cons] at h2
      omega
    by_cases hc : idx.containsKey p.1 = true
    · have hflen : (idx.entries.filter (fun e => decide (e.1 ≠ p.1))).length
          ≤ idx.entries.length := List.length_filter_le _ _
      have hlt : ((idx.removeKey p.1).1).entries.length < ((idx.removeKey p.1).1).capacity := by
        rw [removeKey_fst_entries, removeKey_fst_capacity]
        omega
      have hadd : ((idx.removeKey p.1).1).addEntry p.1 p.2
          = .ok ⟨(idx.entries.filter (fun e => decide (e.1 ≠ p.1))) ++ [(p.1, p.2)],
                 idx.capacity⟩ := addEntry_ok _ _ _ hlt
      have hnd : keysNodup ((idx.entries.filter (fun e => decide (e.1 ≠ p.1))) ++ [(p.1, p.2)]) :=
        keysNodup_append_new _ _ _ (keysNodup_filter _ _ h1) (not_mem_keys_filter _ _)
      have hlen3 : ((idx.entries.filter (fun e => decide (e.1 ≠ p.1))) ++ [(p.1, p.2)]).length
          + rest.length ≤ idx.capacity := by
        simp only [List.length_append, List.length_cons, List.length_nil]
        omega
      obtain ⟨idx2, hloop, hnd2, hcap2, hlen2⟩ :=
        ih ⟨(idx.entries.filter (fun e => decide (e.1 ≠ p.1))) ++ [(p.1, p.2)], idx.capacity⟩
          hnd hlen3
      refine ⟨idx2, ?_, hnd2, hcap2, ?_⟩
      · rw [bulk_add_loop_cons, if_pos hc, hadd]
        exact hloop
      · dsimp only at hlen2
        simp only [List.length_append, List.length_cons, List.length_nil] at hlen2
        simp only [List.length_cons]
        omega
    · have hc0 : idx.containsKey p.1 = false := by
        cases h : idx.containsKey p.1
        · rfl
        · exact absurd h hc
      have hlt : idx.entries.length < idx.capacity := by omega
      have hadd : idx.addEntry p.1 p.2
          = .ok ⟨idx.entries ++ [(p.1, p.2)], idx.capacity⟩ := addEntry_ok _ _ _ hlt
      have hnd : keysNodup (idx.entries ++ [(p.1, p.2)]) :=
        keysNodup_append_new _ _ _ h1 (containsKey_false_not_mem _ _ hc0)
      have hlen3 : (idx.entries ++ [(p.1, p.2)]).length + rest.length ≤ idx.capacity := by
        simp only [List.length_append, List.length_cons, List.length_nil]
        omega
      obtain ⟨idx2, hloop, hnd2, hcap2, hlen2⟩ :=
        ih ⟨idx.entries ++ [(p.1, p.2)], idx.capacity⟩ hnd hlen3
      refine ⟨idx2, ?_, hnd2, hcap2, ?_⟩
      · rw [bulk_add_loop_cons, if_neg hc, hadd]
        exact hloop
      · dsimp only at hlen2
        simp only [List.length_append, List.length_cons, List.length_nil] at hlen2
        simp only [List.length_cons]
        omega

lemma bulk_add_vectors_def (db : VectorDB) (keys : List ℕ) (vectors : List (List ℚ)) :
    db.bulk_add_vectors keys vectors =
      match bulk_add_loop (keys.zip vectors) (db.ensure_capacity keys.length).index with
      | .error e => .error e
      | .ok idx => .ok (VectorDB.save_index ⟨idx, (db.ensure_capacity keys.length).disk⟩) := rfl

/-- C2. Both mutators preserve the at-most-one-vector-per-key invariant (stated
as no duplicate keys in the entry list, under the additional state invariant
that the entry count does not exceed the reserved capacity): `add_vector`
removes an existing key before re-adding and otherwise ensures capacity for one
more entry first, `bulk_add_vectors` removes each pre-existing key before its
add, and both succeed with the on-disk snapshot equal to the final entries. -/
theorem vectordb_add_preserves_invariant :
    ∀ (db : VectorDB) (key : ℕ) (vector : List ℚ) (keys : List ℕ) (vectors : List (List ℚ)),
      keysNodup db.index.entries →
      db.index.size ≤ db.index.capacity →
      (∃ db1, db.add_vector key vector = .ok db1
        ∧ keysNodup db1.index.entries
        ∧ db1.disk = db1.index.entries
        ∧ db1.index.entries
            = db.index.entries.filter (fun e => decide (e.1 ≠ key)) ++ [(key, vector)]
        ∧ (db.contains_vector key = false →
            db1.index.entries = db.index.entries ++ [(key, vector)]
            ∧ db.index.size + 1 ≤ db1.index.capacity))
      ∧ (∃ db2, db.bulk_add_vectors keys vectors = .ok db2
        ∧ keysNodup db2.index.entries
        ∧ db2.disk = db2.index.entries) := by
  intro db key vector keys vectors hnd hsize
  constructor
  · by_cases hc : db.contains_vector key = true
    · have hmem : ∃ e ∈ db.index.entries, e.1 = key := by
        have hx := hc
        rw [VectorDB.contains_vector, UsearchIndex.containsKey, List.any_eq_true] at hx
        obtain ⟨e, he, hb⟩ := hx
        exact ⟨e, he, by simpa using hb⟩
      have hstrict : (db.index.entries.filter (fun e => decide (e.1 ≠ key))).length
          < db.index.entries.length := by
        obtain ⟨e, he, hk⟩ := hmem
        refine (List.length_filter_lt_length_iff_exists).mpr ⟨e, he, ?_⟩
        simp [hk]
      have hlt : ((db.index.removeKey key).1).entries.length
          < ((db.index.removeKey key).1).capacity := by
        rw [removeKey_fst_entries, removeKey_fst_capacity]
        rw [UsearchIndex.size] at hsize
        omega
      have hadd := addEntry_ok ((db.index.removeKey key).1) key vector hlt
      refine ⟨⟨⟨db.index.entries.filter (fun e => decide (e.1 ≠ key)) ++ [(key, vector)],
              db.index.capacity⟩,
              db.index.entries.filter (fun e => decide (e.1 ≠ key)) ++ [(key, vector)]⟩,
            ?_, ?_, rfl, rfl, ?_⟩
      · rw [add_vector_def, if_pos hc]
        dsimp only
        rw [hadd]
        rfl
      · exact keysNodup_append_new _ _ _ (keysNodup_filter _ _ hnd) (not_mem_keys_filter _ _)
      · intro hfalse
        rw [hc] at hfalse
        exact Bool.noConfusion hfalse
    · have hc0 : db.contains_vector key = false := by
        cases h : db.contains_vector key
        · rfl
        · exact absurd h hc
      have hcap := ensure_capacity_cap db 1
      have hlt : ((db.ensure_capacity 1).index).entries.length
          < ((db.ensure_capacity 1).index).capacity := by
        rw [ensure_capacity_entries]
        rw [UsearchIndex.size] at hcap
        omega
      have hadd := addEntry_ok ((db.ensure_capacity 1).index) key vector hlt
      have hfeq : db.index.entries.filter (fun e => decide (e.1 ≠ key)) = db.index.entries :=
        containsKey_false_filter_eq db.index key hc0
      refine ⟨⟨⟨db.index.entries ++ [(key, vector)], (db.ensure_capacity 1).index.capacity⟩,
              db.index.entries ++ [(key, vector)]⟩, ?_, ?_, rfl, ?_, ?_⟩
      · rw [add_vector_def, if_neg hc]
        rw [show (db.ensure_capacity 1).index.addEntry key vector
            = .ok ⟨db.index.entries ++ [(key, vector)], (db.ensure_capacity 1).index.capacity⟩
          from by rw [hadd, ensure_capacity_entries]]
        rfl
      · exact keysNodup_append_new _ _ _ hnd (containsKey_false_not_mem _ _ hc0)
      · rw [hfeq]
      · intro _
        exact ⟨rfl, hcap⟩
  · have hcap := ensure_capacity_cap db keys.length
    have hzip : (keys.zip vectors).length ≤ keys.length := by
      rw [List.length_zip]
      exact min_le_left _ _
    obtain ⟨idx2, hloop, hnd2, hcap2, hlen2⟩ :=
      bulk_add_loop_ok (keys.zip vectors) (db.ensure_capacity keys.length).index
        (by rw [ensure_capacity_entries]; exact hnd)
        (by rw [ensure_capacity_entries]
            rw [UsearchIndex.size] at hcap
            omega)
    refine ⟨⟨idx2, idx2.entries⟩, ?_, hnd2, rfl⟩
    rw [bulk_add_vectors_def, hloop]
    rfl

/-- Witness for C2 on a concrete one-entry store: key 1 is replaced, key 2 is
freshly bulk-added. -/
theorem vectordb_add_preserves_invariant_witness :
    (∃ db1, sampleDB.add_vector 1 [7] = .ok db1
      ∧ keysNodup db1.index.entries
      ∧ db1.disk = db1.index.entries
      ∧ db1.index.entries
          = sampleDB.index.entries.filter (fun e => decide (e.1 ≠ 1)) ++ [(1, [7])]
      ∧ (sampleDB.contains_vector 1 = false →
          db1.index.entries = sampleDB.index.entries ++ [(1, [7])]
          ∧ sampleDB.index.size + 1 ≤ db1.index.capacity))
    ∧ (∃ db2, sampleDB.bulk_add_vectors [2] [[9]] = .ok db2
      ∧ keysNodup db2.index.entries
      ∧ db2.disk = db2.index.entries) :=
  vectordb_add_preserves_invariant sampleDB 1 [7] [2] [[9]]
    (by simp [keysNodup, sampleDB])
    (by norm_num [sampleDB, UsearchIndex.size])

/-! ## C3: similarity search -/

lemma partition_point_go_succ (l : List ℚ) (md : ℚ) (fuel left right : ℕ) :
    partition_point_go l md (fuel + 1) left right =
      if left < right then
        (if l.getD (left + (right - left) / 2) 0 ≤ md then
          partition_point_go l md fuel (left + (right - left) / 2 + 1) right
         else partition_point_go l md fuel left (left + (right - left) / 2))
      else left := rfl

lemma sorted_getD_lt_takeWhile (md : ℚ) :
    ∀ (l : List ℚ), l.Sorted (· ≤ ·) →
      ∀ m, m < l.length → l.getD m 0 ≤ md →
        m < (l.takeWhile (fun x => decide (x ≤ md))).length := by
  intro l
  induction l with
  | nil =>
    intro _ m hm
    simp at hm
  | cons a t ih =>
    intro hs m hm hle
    have hs' := List.sorted_cons.mp hs
    cases m with
    | zero =>
      rw [List.getD_cons_zero] at hle
      rw [List.takeWhile_cons, if_pos (by simpa using hle)]
      simp
    | succ m =>
      rw [List.getD_cons_succ] at hle
      have hm' : m < t.length := by simpa using hm
      have hmem : t.getD m 0 ∈ t := by
        rw [List.getD_eq_getElem t 0 hm']
        exact List.getElem_mem hm'
      have ha : a ≤ md := le_trans (hs'.1 _ hmem) hle
      rw [List.takeWhile_cons, if_pos (by simpa using ha)]
      simpa using ih hs'.2 m hm' hle

lemma partition_point_go_le (l : List ℚ) (md : ℚ) (k : ℕ)
    (hk : ∀ m, m < l.length → l.getD m 0 ≤ md → m < k) :
    ∀ (fuel left right : ℕ), right ≤ l.length → left ≤ k →
      partition_point_go l md fuel left right ≤ k := by
  intro fuel
  induction fuel with
  | zero =>
    intro left right h1 h2
    exact h2
  | succ n ih =>
    intro left right h1 h2
    rw [partition_point_go_succ]
    split_ifs with hlr hp
    · exact ih (left + (right - left) / 2 + 1) right h1
        (by have := hk (left + (right - left) / 2) (by omega) hp; omega)
    · exact ih left (left + (right - left) / 2) (by omega) h2
    · exact h2

lemma truncate_sorted_matches_def (keys : List ℕ) (distances : List ℚ) (md : ℚ) :
    truncate_sorted_matches_within_distance keys distances md =
      ((keys.take (min keys.length distances.length)).take
        (partition_point (distances.take (min keys.length distances.length)) md),
       (distances.take (min keys.length distances.length)).take
        (partition_point (distances.take (min keys.length distances.length)) md)) := rfl

lemma take_partition_point_mem_le (l1 : List ℚ) (md : ℚ) (hs1 : l1.Sorted (· ≤ ·)) :
    ∀ d ∈ l1.take (partition_point l1 md), d ≤ md := by
  intro d hd
  set k := (l1.takeWhile (fun x => decide (x ≤ md))).length with hkdef
  have hpp : partition_point l1 md ≤ k :=
    partition_point_go_le l1 md k (sorted_getD_lt_takeWhile md l1 hs1) l1.length 0 l1.length
      le_rfl (Nat.zero_le k)
  have htake : l1.take (partition_point l1 md) = (l1.take k).take (partition_point l1 md) := by
    rw [List.take_take, min_eq_left hpp]
  have htw : l1.take k = l1.takeWhile (fun x => decide (x ≤ md)) :=
    (List.prefix_iff_eq_take.mp (List.takeWhile_prefix _)).symm
  have hd2 : d ∈ l1.takeWhile (fun x => decide (x ≤ md)) := by
    rw [htake, htw] at hd
    exact (List.take_sublist _ _).subset hd
  have := List.mem_takeWhile_imp hd2
  simpa using this

lemma truncate_sorted_mem_le (keys : List ℕ) (distances : List ℚ) (md : ℚ)
    (hs : distances.Sorted (· ≤ ·)) :
    ∀ d ∈ (truncate_sorted_matches_within_distance keys distances md).2, d ≤ md := by
  intro d hd
  rw [truncate_sorted_matches_def] at hd
  exact take_partition_point_mem_le _ md
    (List.Pairwise.sublist (List.take_sublist _ _) hs) d hd

lemma fast_search_go_cons (search : ℕ → List ℕ × List ℚ) (n : ℕ) (md : ℚ)
    (step : ℕ) (rest : List ℕ) (prev : ℕ) :
    fast_search_go search n md (step :: rest) prev =
      if min step n ≤ prev then fast_search_go search n md rest prev
      else
        if decide (min step n < n)
            && (match (search (min step n)).2.getLast? with
                | some d => decide (d ≤ md)
                | none => false) then
          fast_search_go search n md rest (min step n)
        else
          (some (truncate_sorted_matches_within_distance (search (min step n)).1
            (search (min step n)).2 md), min step n) := rfl

lemma fast_search_go_some_le (search : ℕ → List ℕ × List ℚ) (n : ℕ) (md : ℚ)
    (hs : ∀ c, ((search c).2).Sorted (· ≤ ·)) :
    ∀ (steps : List ℕ) (prev : ℕ) (r : List ℕ × List ℚ) (cnt : ℕ),
      fast_search_go search n md steps prev = (some r, cnt) →
      ∀ d ∈ r.2, d ≤ md := by
  intro steps
  induction steps with
  | nil =>
    intro prev r cnt h
    simp [fast_search_go] at h
  | cons step rest ih =>
    intro prev r cnt h
    rw [fast_search_go_cons] at h
    split_ifs at h with h1 h2
    · exact ih _ _ _ h
    · exact ih _ _ _ h
    · injection h with ha hb
      injection ha with ha2
      subst ha2
      exact truncate_sorted_mem_le _ _ _ (hs _)

lemma fast_search_le (search : ℕ → List ℕ × List ℚ) (n : ℕ) (md : ℚ)
    (hs : ∀ c, ((search c).2).Sorted (· ≤ ·)) :
    ∀ d ∈ (fast_search_vectors_within_distance search n md).2, d ≤ md := by
  intro d hd
  rw [fast_search_vectors_within_distance] at hd
  split_ifs at hd with h0
  · simp at hd
  · rcases hgo : fast_search_go search n md FAST_SEARCH_STEP_COUNTS 0 with ⟨o, cnt⟩
    rw [hgo] at hd
    rcases o with _ | r
    · dsimp only at hd
      split_ifs at hd with hlt
      · exact truncate_sorted_mem_le _ _ _ (hs _) d hd
      · simp at hd
    · exact fast_search_go_some_le search n md hs _ _ _ _ hgo d hd

/-- C3. The within-similarity search returns an empty result whenever the
similarity is non-finite, or `max_dist = 1 - s` is negative, or the index is
empty; and (for an index whose search responses list distances in ascending
order, as the underlying ANN index does) every returned distance is at most
`1 - s`. -/
theorem approx_search_within_similarity_spec :
    ∀ (search : ℕ → List ℕ × List ℚ) (index_size : ℕ) (s : F32),
      (s.isFinite = false →
        approx_search_vectors_within_similarity search index_size s = ([], []))
      ∧ (∀ q : ℚ, s.oneSub = .finite q → q < 0 →
        approx_search_vectors_within_similarity search index_size s = ([], []))
      ∧ (index_size = 0 →
        approx_search_vectors_within_similarity search index_size s = ([], []))
      ∧ ((∀ c, ((search c).2).Sorted (· ≤ ·)) →
        ∀ q : ℚ, s.oneSub = .finite q →
        ∀ d ∈ (approx_search_vectors_within_similarity search index_size s).2, d ≤ q) := by
  intro search n s
  refine ⟨?_, ?_, ?_, ?_⟩
  · intro h
    rw [approx_search_vectors_within_similarity, if_pos (Or.inr h)]
  · intro q hq hneg
    by_cases hn : n = 0
    · rw [approx_search_vectors_within_similarity, if_pos (Or.inl hn)]
    · have hfin : s.isFinite = true := by
        cases s with
        | finite v => rfl
        | nan => simp [F32.oneSub] at hq
        | inf => simp [F32.oneSub] at hq
        | neg_inf => simp [F32.oneSub] at hq
      rw [approx_search_vectors_within_similarity, if_neg (by simp [hn, hfin]), hq]
      dsimp only
      rw [if_pos hneg]
  · intro h0
    rw [approx_search_vectors_within_similarity, if_pos (Or.inl h0)]
  · intro hs q hq d hd
    by_cases hn : n = 0
    · rw [approx_search_vectors_within_similarity, if_pos (Or.inl hn)] at hd
      simp at hd
    · have hfin : s.isFinite = true := by
        cases s with
        | finite v => rfl
        | nan => simp [F32.oneSub] at hq
        | inf => simp [F32.oneSub] at hq
        | neg_inf => simp [F32.oneSub] at hq
      rw [approx_search_vectors_within_similarity, if_neg (by simp [hn, hfin]), hq] at hd
      dsimp only at hd
      by_cases hneg : q < 0
      · rw [if_pos hneg] at hd
        simp at hd
      · rw [if_neg hneg] at hd
        exact fast_search_le search n q hs d hd

/-- Witness for C3: a nan similarity yields the empty result, and on a one-entry
index with distance 1/2 and similarity 1/4 the returned distance respects the
3/4 bound. -/
theorem approx_search_within_similarity_spec_witness :
    approx_search_vectors_within_similarity (fun _ => ([5], [1/2])) 1 F32.nan = ([], [])
    ∧ (1:ℚ)/2 ≤ 3/4 := by
  have honesub : (F32.finite (1/4)).oneSub = F32.finite (3/4) := by
    show (if F32_MAX < 1 - (1/4 : ℚ) then F32.inf
      else if 1 - (1/4 : ℚ) < -F32_MAX then F32.neg_inf
      else F32.finite (1 - 1/4)) = F32.finite (3/4)
    rw [if_neg (by norm_num [F32_MAX]), if_neg (by norm_num [F32_MAX])]
    norm_num
  have e1 : partition_point [(1:ℚ)/2] (3/4) = 1 := by
    rw [partition_point, show ([(1:ℚ)/2]).length = 1 from rfl, partition_point_go_succ]
    rw [if_pos (by norm_num)]
    rw [show ([(1:ℚ)/2]).getD (0 + (1 - 0) / 2) 0 = 1/2 from rfl]
    rw [if_pos (by norm_num)]
    rfl
  have e2 : truncate_sorted_matches_within_distance [5] [(1:ℚ)/2] (3/4) = ([5], [1/2]) := by
    rw [truncate_sorted_matches_def]
    show (([(5:ℕ)]).take (partition_point [(1:ℚ)/2] (3/4)),
      ([(1:ℚ)/2]).take (partition_point [(1:ℚ)/2] (3/4))) = ([5], [1/2])
    rw [e1]
    rfl
  have happrox : approx_search_vectors_within_similarity
      (fun _ => ([5], [1/2])) 1 (F32.finite (1/4)) = ([5], [1/2]) := by
    rw [approx_search_vectors_within_similarity, if_neg (by simp [F32.isFinite]), honesub]
    dsimp only
    rw [if_neg (by norm_num)]
    rw [fast_search_vectors_within_distance, if_neg (by norm_num), FAST_SEARCH_STEP_COUNTS]
    rw [fast_search_go_cons]
    rw [if_neg (by norm_num [min_def])]
    rw [if_neg (by simp [min_def])]
    exact e2
  constructor
  · exact (approx_search_within_similarity_spec (fun _ => ([5], [1/2])) 1 F32.nan).1 rfl
  · refine (approx_search_within_similarity_spec (fun _ => ([5], [1/2])) 1
      (F32.finite (1/4))).2.2.2 (fun c => ?_) (3/4) honesub (1/2) ?_
    · exact List.sorted_singleton _
    · rw [happrox]
      simp

end Ente
